import Mathlib

/-!
A shallow embedding of the `driveclient` package (`driveclient/__init__.py`)
and proofs about its retry/backoff executor, query resolution, upload
reconciliation (`write`), local save guard (`save_as`) and object
classification (`DriveObject.__new__`).

Machine-level details that the claims do not touch (OAuth, HTTP, JSON
plumbing) are out of scope, exactly as the specification declares them to be.
Remote-service behaviour (the Google Drive v2 endpoints used by the client)
is modelled by a small in-memory state `Drive` matching the transport
contract the specification assumes.
-/

namespace DriveClient

/-! ### Strings: `reason.lower().replace(' ','')` and Python's `in` -/

/-- Python `error._get_reason().lower().replace(' ', '')` from
`DriveClient.execute`: lowercase every character and drop the spaces. -/
def normalizeReason (s : String) : String :=
  String.mk ((s.data.map Char.toLower).filter (fun c => c ≠ ' '))

/-- Does `hay` start with `needle`? (helper for the substring test). -/
def subMatch : List Char → List Char → Bool
  | [], _ => true
  | _ :: _, [] => false
  | a :: as, b :: bs => a == b && subMatch as bs

/-- Does `hay` contain `needle` as a contiguous run? -/
def listSub (needle : List Char) : List Char → Bool
  | [] => subMatch needle []
  | b :: bs => subMatch needle (b :: bs) || listSub needle bs

/-- Python's `needle in hay` on strings. -/
def strIncludes (hay needle : String) : Bool :=
  listSub needle.data hay.data

/-! ### The failure taxonomy of `DriveClient.execute` -/

/-- Outcome of a single attempt of a request against the remote service:
either a response value or an `HttpError` carrying its reason text. -/
inductive Attempt (α : Type) where
  | ok (v : α)
  | err (reason : String)
deriving Repr

/-- The classification chain of `DriveClient.execute`
(`'ratelimitexceeded' in reason` / `'notfound' in reason` /
`'invalidchange' in reason` / fall-through `raise`), applied to the
normalized reason text. -/
inductive ErrClass where
  | retryable
  | absorbable
  | fatal
deriving Repr, DecidableEq

/-- Classify an `HttpError` reason the way `DriveClient.execute` does. -/
def classifyReason (reason : String) : ErrClass :=
  let n := normalizeReason reason
  if strIncludes n "ratelimitexceeded" then .retryable
  else if strIncludes n "notfound" then .absorbable
  else if strIncludes n "invalidchange" then .absorbable
  else .fatal

/-- Is this attempt outcome a rate-limit failure (the retried case)? -/
def isRL {α : Type} : Attempt α → Bool
  | .ok _ => false
  | .err r => match classifyReason r with
    | .retryable => true
    | _ => false

/-- What a call to `DriveClient.execute` did: the Python return value
(`Except.error` models a raised exception, `Except.ok none` models
returning `None`), the number of attempts issued, and the durations of
the sleeps performed (in seconds, as exact rationals). -/
structure ExecResult (α : Type) where
  result : Except String (Option α)
  attempts : Nat
  sleeps : List ℚ
deriving Repr

/-- The loop body of `DriveClient.execute`: `t` gives the outcome of each
attempt (indexed from 0), `j` the `random.random()` jitter drawn before
each sleep, `i` the current loop index and `fuel` the remaining
iterations of `for i in range(5)`. Falling off the loop returns `None`. -/
def executeAux {α : Type} (t : Nat → Attempt α) (j : Nat → ℚ) : Nat → Nat → ExecResult α
  | _, 0 => ⟨Except.ok none, 0, []⟩
  | i, fuel + 1 =>
    match t i with
    | .ok v => ⟨Except.ok (some v), 1, []⟩
    | .err reason =>
      match classifyReason reason with
      | .retryable =>
        let rest := executeAux t j (i + 1) fuel
        ⟨rest.result, rest.attempts + 1, ((2 : ℚ) ^ i + j i) :: rest.sleeps⟩
      | .absorbable => ⟨Except.ok none, 1, []⟩
      | .fatal => ⟨Except.error reason, 1, []⟩

/-- `DriveClient.execute`: run the request for up to 5 attempts. -/
def execute {α : Type} (t : Nat → Attempt α) (j : Nat → ℚ) : ExecResult α :=
  executeAux t j 0 5

/-! #### Basic unfolding lemmas for the executor -/

theorem executeAux_rl_step {α : Type} (t : Nat → Attempt α) (j : Nat → ℚ)
    (i fuel : Nat) (r : String) (ht : t i = Attempt.err r)
    (hc : classifyReason r = ErrClass.retryable) :
    executeAux t j i (fuel + 1) =
      ⟨(executeAux t j (i + 1) fuel).result,
       (executeAux t j (i + 1) fuel).attempts + 1,
       ((2 : ℚ) ^ i + j i) :: (executeAux t j (i + 1) fuel).sleeps⟩ := by
  simp [executeAux, ht, hc]

theorem isRL_spec {α : Type} (a : Attempt α) (h : isRL a = true) :
    ∃ r, a = Attempt.err r ∧ classifyReason r = ErrClass.retryable := by
  cases a with
  | ok v => simp [isRL] at h
  | err r =>
    refine ⟨r, rfl, ?_⟩
    by_contra hne
    cases hc : classifyReason r <;> simp [isRL, hc] at h hne ⊢

/-- Skipping over a run of rate-limited attempts: result is unchanged,
and the attempt count grows by the length of the run. -/
theorem executeAux_skip {α : Type} (t : Nat → Attempt α) (j : Nat → ℚ)
    (fuel : Nat) :
    ∀ (m i : Nat), (∀ n, n < m → isRL (t (i + n)) = true) →
      (executeAux t j i (m + fuel)).result = (executeAux t j (i + m) fuel).result ∧
      (executeAux t j i (m + fuel)).attempts = (executeAux t j (i + m) fuel).attempts + m := by
  intro m
  induction m with
  | zero => intro i _; simp
  | succ m ih =>
    intro i h
    obtain ⟨r, hr, hc⟩ := isRL_spec (t (i + 0)) (h 0 (Nat.succ_pos m))
    rw [Nat.add_zero] at hr
    have hstep := executeAux_rl_step t j i (m + fuel) r hr hc
    have hrec := ih (i + 1) (fun n hn => by
      have := h (n + 1) (Nat.succ_lt_succ hn)
      rwa [show i + (n + 1) = i + 1 + n by omega] at this)
    constructor
    · rw [show m + 1 + fuel = (m + fuel) + 1 by omega, hstep]
      rw [show i + (m + 1) = i + 1 + m by omega]
      exact hrec.1
    · rw [show m + 1 + fuel = (m + fuel) + 1 by omega, hstep]
      rw [show i + (m + 1) = i + 1 + m by omega]
      show (executeAux t j (i + 1) (m + fuel)).attempts + 1 =
        (executeAux t j (i + 1 + m) fuel).attempts + (m + 1)
      have h2 := hrec.2
      omega

/-! ### Claims about the executor (C1, C2, C7) -/

/-- A transport whose every attempt is rejected with a rate-limit reason. -/
def rlT : Nat → Attempt Nat := fun _ => Attempt.err "Rate Limit Exceeded"

/-- A transport whose every attempt is rejected with a not-found reason. -/
def nfT : Nat → Attempt Nat := fun _ => Attempt.err "File not found"

/-- Zero jitter (`random.random()` returning 0 on every draw). -/
def jZero : Nat → ℚ := fun _ => 0

/-- Claim C1, counterexample: with a transport that is rate-limited on every
attempt, `execute` performs 5 attempts but then RETURNS `None`
(`Except.ok none`) — the `for` loop falls through and the function returns
without raising, so no explicit failure is propagated to the caller. -/
theorem execute_exhaustion_cex :
    (execute rlT jZero).result = Except.ok none ∧
    (execute rlT jZero).attempts = 5 := by
  constructor <;> rfl

/-- Claim C1 (amended): for every request whose execution is classified as
rate-limited on every attempt, `execute` performs exactly 5 attempts and then
returns `None` to the caller (the loop is exhausted without raising). -/
theorem execute_exhaustion (t : Nat → Attempt Nat) (j : Nat → ℚ)
    (h : ∀ n, n < 5 → isRL (t n) = true) :
    (execute t j).result = Except.ok none ∧ (execute t j).attempts = 5 := by
  have h' : ∀ n, n < 5 → isRL (t (0 + n)) = true := by
    intro n hn; rw [Nat.zero_add]; exact h n hn
  have hs := executeAux_skip t j 0 5 0 h'
  constructor
  · have h1 := hs.1
    simpa [execute, executeAux] using h1
  · have h2 := hs.2
    simpa [execute, executeAux] using h2

/-- Witness for `execute_exhaustion` at the concrete transport `rlT`. -/
theorem execute_exhaustion_witness :
    (execute rlT jZero).result = Except.ok none ∧
    (execute rlT jZero).attempts = 5 :=
  execute_exhaustion rlT jZero (by decide)

/-- Claim C2: if the attempts before attempt `k` are all rate-limited and
attempt `k` fails with an absorbable (not-found / invalid-state)
classification, `execute` returns `None` right there, after `k + 1` attempts
and with no retry of attempt `k`; if attempt `k` instead fails with a fatal
classification (anything that is not rate-limit, not-found or
invalid-state), the error is raised to the caller right there. -/
theorem execute_absorb_or_raise {α : Type} (t : Nat → Attempt α) (j : Nat → ℚ)
    (k : Nat) (r : String) (hk : k < 5)
    (hrl : ∀ n, n < k → isRL (t n) = true)
    (ht : t k = Attempt.err r) :
    (classifyReason r = ErrClass.absorbable →
      (execute t j).result = Except.ok none ∧ (execute t j).attempts = k + 1) ∧
    (classifyReason r = ErrClass.fatal →
      (execute t j).result = Except.error r ∧ (execute t j).attempts = k + 1) := by
  have hf : 5 - k = (4 - k) + 1 := by omega
  have he : execute t j = executeAux t j 0 (k + (5 - k)) := by
    rw [execute]; congr 1; omega
  have hs := executeAux_skip t j (5 - k) k 0 (fun n hn => by
    rw [Nat.zero_add]; exact hrl n hn)
  constructor
  · intro hc
    have hv : executeAux t j (0 + k) (5 - k) = ⟨Except.ok none, 1, []⟩ := by
      rw [Nat.zero_add, hf]; simp [executeAux, ht, hc]
    refine ⟨?_, ?_⟩
    · rw [he, hs.1, hv]
    · rw [he, hs.2, hv]; show 1 + k = k + 1; omega
  · intro hc
    have hv : executeAux t j (0 + k) (5 - k) = ⟨Except.error r, 1, []⟩ := by
      rw [Nat.zero_add, hf]; simp [executeAux, ht, hc]
    refine ⟨?_, ?_⟩
    · rw [he, hs.1, hv]
    · rw [he, hs.2, hv]; show 1 + k = k + 1; omega

/-- Witness for `execute_absorb_or_raise`: a first-attempt not-found failure
is absorbed as `None` after exactly one attempt. -/
theorem execute_absorb_or_raise_witness :
    (execute nfT jZero).result = Except.ok none ∧
    (execute nfT jZero).attempts = 0 + 1 :=
  (execute_absorb_or_raise nfT jZero 0 "File not found" (by decide)
    (fun n hn => absurd hn (Nat.not_lt_zero n)) rfl).1 (by decide)

/-- Claim C7: with rate-limit failures on the first two attempts and success
on the third, `execute` returns the successful result after 3 attempts and
sleeps exactly twice, the sleep for attempt `i` lasting `2 ^ i + jitter i`
seconds with the jitter in `[0, 1)`; the two backoff durations are
(strictly) increasing, so the bounds are non-decreasing. -/
theorem execute_retry_backoff {α : Type} (t : Nat → Attempt α) (j : Nat → ℚ)
    (r0 r1 : String) (v : α)
    (h0 : t 0 = Attempt.err r0) (h1 : t 1 = Attempt.err r1)
    (h2 : t 2 = Attempt.ok v)
    (hc0 : classifyReason r0 = ErrClass.retryable)
    (hc1 : classifyReason r1 = ErrClass.retryable)
    (hj : ∀ n, 0 ≤ j n ∧ j n < 1) :
    execute t j = ⟨Except.ok (some v), 3,
      [(2 : ℚ) ^ 0 + j 0, (2 : ℚ) ^ 1 + j 1]⟩ ∧
    (2 : ℚ) ^ 0 + j 0 < (2 : ℚ) ^ 1 + j 1 := by
  constructor
  · show executeAux t j 0 5 = _
    rw [show (5 : Nat) = 4 + 1 from rfl, executeAux_rl_step t j 0 4 r0 h0 hc0]
    rw [show (4 : Nat) = 3 + 1 from rfl, executeAux_rl_step t j 1 3 r1 h1 hc1]
    simp [executeAux, h2]
  · have ha := (hj 0).2
    have hb := (hj 1).1
    norm_num
    linarith

/-- The C7 scenario transport: rate-limited twice, then a response. -/
def rlrlOkT : Nat → Attempt Nat
  | 0 => Attempt.err "Rate Limit Exceeded"
  | 1 => Attempt.err "Rate Limit Exceeded"
  | _ => Attempt.ok 7

/-- Witness for `execute_retry_backoff` at the concrete transport
`rlrlOkT` with zero jitter. -/
theorem execute_retry_backoff_witness :
    execute rlrlOkT jZero = ⟨Except.ok (some 7), 3,
      [(2 : ℚ) ^ 0 + jZero 0, (2 : ℚ) ^ 1 + jZero 1]⟩ ∧
    (2 : ℚ) ^ 0 + jZero 0 < (2 : ℚ) ^ 1 + jZero 1 :=
  execute_retry_backoff rlrlOkT jZero _ _ 7 rfl rfl rfl (by decide) (by decide)
    (fun n => ⟨by norm_num [jZero], by norm_num [jZero]⟩)

/-! ### The remote service state (the Drive v2 transport the client calls)

Object metadata as the client reads it: `id`, `title`, `mimeType`,
`parents` and `trashed` from the JSON resource; `content` stands for the
stored bytes, `modifiedDate` drives the `orderBy=modifiedDate desc` sort,
and `ownedByOther` models an object the authenticated account may not
delete (the `write` docstring's "file owned by another account"). -/

structure RemoteObjectMeta where
  id : Nat
  title : String
  mimeType : String
  parents : List Nat
  content : List Nat
  modifiedDate : Nat
  trashed : Bool
  ownedByOther : Bool
deriving Repr, DecidableEq

/-- The remote store: the objects it holds, the id it will hand to the next
inserted object, the root folder's id and the current server time. -/
structure Drive where
  objects : List RemoteObjectMeta
  nextId : Nat
  rootId : Nat
  now : Nat
deriving Repr

/-- Well-formedness of the store: ids were handed out by the counter
(hence are below `nextId`) and no two objects share an id. -/
def Drive.wf (d : Drive) : Prop :=
  (∀ o ∈ d.objects, o.id < d.nextId) ∧ (d.objects.map (fun o => o.id)).Nodup

/-- Look an object up by id. -/
def Drive.findById (d : Drive) (i : Nat) : Option RemoteObjectMeta :=
  d.objects.find? (fun o => o.id == i)

/-- `files().get(fileId=i)`: metadata, or a not-found `HttpError`. -/
def svcGet (d : Drive) (i : Nat) : Except String RemoteObjectMeta :=
  match d.findById i with
  | some o => Except.ok o
  | none => Except.error "File not found"

/-- The mime type the service stores for an upload: with `convert=True`
Drive converts the payload into its native document format. -/
def effectiveMime (convert : Bool) (mimetype : String) : String :=
  if convert then "application/vnd.google-apps.document" else mimetype

/-- `files().insert(...)`: always creates a fresh object under the next id. -/
def svcInsert (d : Drive) (title : String) (parents : List Nat)
    (convert : Bool) (mimetype : String) (content : List Nat) :
    RemoteObjectMeta × Drive :=
  let o : RemoteObjectMeta :=
    { id := d.nextId, title := title, mimeType := effectiveMime convert mimetype,
      parents := parents, content := content, modifiedDate := d.now,
      trashed := false, ownedByOther := false }
  (o, { d with objects := o :: d.objects, nextId := d.nextId + 1 })

/-- `files().update(fileId=i, ...)`: in-place update of metadata and content,
keeping the id, or a not-found `HttpError`. -/
def svcUpdate (d : Drive) (i : Nat) (title : String) (parents : List Nat)
    (convert : Bool) (mimetype : String) (content : List Nat) :
    Except String (RemoteObjectMeta × Drive) :=
  match d.findById i with
  | none => Except.error "File not found"
  | some o =>
    let o' := { o with title := title, parents := parents,
                       mimeType := effectiveMime convert mimetype,
                       content := content, modifiedDate := d.now }
    Except.ok (o', { d with objects := d.objects.map (fun p => if p.id == i then o' else p) })

/-- `files().delete(fileId=i)`: removal, a not-found `HttpError`, or a
permission `HttpError` when the object belongs to another account. -/
def svcDelete (d : Drive) (i : Nat) : Except String Drive :=
  match d.findById i with
  | none => Except.error "File not found"
  | some o =>
    if o.ownedByOther then
      Except.error "The authenticated user does not have the required access to the file"
    else
      Except.ok { d with objects := d.objects.filter (fun p => p.id != i) }

/-- `orderBy=modifiedDate desc`: `a` precedes `b` when `a` was modified at
least as recently as `b`. -/
def byRecency (a b : RemoteObjectMeta) : Prop :=
  b.modifiedDate ≤ a.modifiedDate

instance : DecidableRel byRecency := fun a b =>
  inferInstanceAs (Decidable (b.modifiedDate ≤ a.modifiedDate))

instance : IsTotal RemoteObjectMeta byRecency :=
  ⟨fun a b => Nat.le_total b.modifiedDate a.modifiedDate⟩

instance : IsTrans RemoteObjectMeta byRecency :=
  ⟨fun _ _ _ hab hbc => Nat.le_trans hbc hab⟩

/-- `files().list(q=..., orderBy='modifiedDate desc', maxResults=k)`:
the first `k` matches of the filter, most recently modified first. The
filter expression is modelled as the predicate the service evaluates. -/
def svcList (d : Drive) (pred : RemoteObjectMeta → Bool) (k : Nat) :
    List RemoteObjectMeta :=
  (List.insertionSort byRecency (d.objects.filter pred)).take k

/-- What `DriveClient.query` returns: `maxResults > 1` yields a list,
otherwise a single object or `None`. -/
inductive QueryResult where
  | single (o : Option RemoteObjectMeta)
  | many (os : List RemoteObjectMeta)
deriving Repr, DecidableEq

/-- `'"<parent>" in parents and (<q>)'`: restrict the caller's filter to
direct children of `parent` when one is given. -/
def scopedPred (parent : Option Nat) (pred : RemoteObjectMeta → Bool) :
    RemoteObjectMeta → Bool :=
  match parent with
  | none => pred
  | some pid => fun o => o.parents.contains pid && pred o

/-- `DriveClient.query`: run the list call, then shape the result by
`maxResults` (`files` vs `files[0] if files else None`). -/
def clientQuery (d : Drive) (pred : RemoteObjectMeta → Bool)
    (parent : Option Nat) (maxResults : Nat) : QueryResult :=
  let files := svcList d (scopedPred parent pred) maxResults
  if maxResults > 1 then .many files else .single files.head?

/-! ### Client-side wrappers and `DriveClient.write` -/

/-- The value `self.execute(request)` produces for a request whose outcome
against the current store is `r` and does not change between attempts:
a retryable failure repeats 5 times and the loop then returns `None`, an
absorbable failure returns `None` at once, and a fatal failure raises. -/
def runExec {α : Type} (r : Except String α) : Except String (Option α) :=
  match r with
  | .ok v => Except.ok (some v)
  | .error reason =>
    match classifyReason reason with
    | .retryable => Except.ok none
    | .absorbable => Except.ok none
    | .fatal => Except.error reason

/-- `runExec` agrees with running `execute` on the constant transport that
returns `r` on every attempt (with any jitter). -/
theorem runExec_spec {α : Type} (r : Except String α) (j : Nat → ℚ) :
    (execute (fun _ => match r with
      | .ok v => Attempt.ok v
      | .error reason => Attempt.err reason) j).result = runExec r := by
  match r with
  | .ok v => rfl
  | .error reason =>
    show (executeAux _ j 0 5).result = _
    cases hc : classifyReason reason with
    | retryable => simp [runExec, executeAux, hc]
    | absorbable => simp [executeAux, runExec, hc]
    | fatal => simp [executeAux, runExec, hc]

/-- `DriveClient.get` (hence `DriveClient.file(id=...)`): execute the get
request and wrap a truthy response; the only failure the model's get
produces is absorbable not-found, which comes back as `None`. -/
def clientGet (d : Drive) (i : Nat) : Option RemoteObjectMeta :=
  match runExec (svcGet d i) with
  | .ok r => r
  | .error _ => none

/-- A `maxResults=1` query: `files[0] if files else None`. -/
def clientQuery1 (d : Drive) (pred : RemoteObjectMeta → Bool)
    (parent : Option Nat) : Option RemoteObjectMeta :=
  (svcList d (scopedPred parent pred) 1).head?

/-- The folder mime marker `DriveObject.folder_type`. -/
def folderType : String := "application/vnd.google-apps.folder"

/-- Filter of `DriveClient.folder(name=...)`:
`title="<name>" and mimeType="<folder>" and trashed=false`. -/
def folderByNamePred (nm : String) (o : RemoteObjectMeta) : Bool :=
  o.title == nm && o.mimeType == folderType && o.trashed == false

/-- Filter of `DriveFolder.file(name)`:
`mimeType != "<folder>" and title = "<name>" and trashed=false`. -/
def childFilePred (nm : String) (o : RemoteObjectMeta) : Bool :=
  o.mimeType != folderType && o.title == nm && o.trashed == false

/-- The `folder` argument of `DriveClient.write`: a name string, a
`DriveFolder` object, or absent (`None`, meaning the root folder). -/
inductive FolderArg where
  | asName (nm : String)
  | asObj (meta : RemoteObjectMeta)
  | noArg
deriving Repr

/-- Arguments of `DriveClient.write`; `none` in `name`/`id` models the
falsy default `''`. -/
structure WriteArgs where
  name : Option String
  folder : FolderArg
  bytestring : List Nat
  mimetype : String
  replace : Bool
  convert : Bool
  id : Option Nat
deriving Repr

/-- A remote call issued while `write` runs (the request log). -/
inductive DriveOp where
  | aboutOp
  | getOp (id : Nat)
  | listOp
  | insertOp
  | updateOp (id : Nat)
  | deleteOp (id : Nat)
deriving Repr, DecidableEq

/-- Does the call mutate remote state? -/
def DriveOp.mutating : DriveOp → Bool
  | .insertOp => true
  | .updateOp _ => true
  | .deleteOp _ => true
  | _ => false

/-- Outcome of the target-resolution phase of `write` (its first half,
up to building `params`). -/
inductive ResolveResult where
  | early
  | pyError (msg : String)
  | found (ef : Option RemoteObjectMeta) (nm : String) (parents : List Nat)
deriving Repr

/-- The resolution phase of `DriveClient.write`: pick the existing file and
the title/parents for the upload. `early` is a bare `return`; `pyError` is
the `AttributeError` Python raises in `folder.file(name)` when
`self.root` resolved to `None`. -/
def resolveTarget (d : Drive) (a : WriteArgs) : ResolveResult × List DriveOp :=
  match a.id with
  | some i =>
    match clientGet d i with
    | none => (.early, [.getOp i])
    | some ef => (.found (some ef) ef.title ef.parents, [.getOp i])
  | none =>
    match a.name with
    | none => (.early, [])
    | some nm =>
      match a.folder with
      | .asName fnm =>
        match clientQuery1 d (folderByNamePred fnm) none with
        | none => (.early, [.listOp])
        | some f =>
          (.found (clientQuery1 d (childFilePred nm) (some f.id)) nm [f.id],
           [.listOp, .listOp])
      | .asObj f =>
        (.found (clientQuery1 d (childFilePred nm) (some f.id)) nm [f.id],
         [.listOp])
      | .noArg =>
        match clientGet d d.rootId with
        | none => (.pyError "AttributeError", [.aboutOp, .getOp d.rootId])
        | some f =>
          (.found (clientQuery1 d (childFilePred nm) (some f.id)) nm [f.id],
           [.aboutOp, .getOp d.rootId, .listOp])

/-- What a call to `write` does: return a value (`ret`, with `none` for
Python `None`) or raise (`raised`). -/
inductive WriteOutcome where
  | ret (o : Option RemoteObjectMeta)
  | raised (reason : String)
deriving Repr

/-- Python `'google-apps' in existing_file.mimeType`: is the object stored
as a converted native document? -/
def isConverted (mimeType : String) : Bool :=
  strIncludes mimeType "google-apps"

/-- The reconciliation phase of `DriveClient.write` (from the
`if existing_file and not replace:` check down): no-op without `replace`,
update in place when the representation already matches `convert`,
delete-then-insert when it does not (absorbing a rejected delete), insert
when there is nothing to replace. -/
def writeRecon (d : Drive) (a : WriteArgs) (ef : Option RemoteObjectMeta)
    (nm : String) (parents : List Nat) :
    WriteOutcome × Drive × List DriveOp :=
  match ef with
  | some f =>
    if !a.replace then (.ret none, d, [])
    else if (!a.convert && isConverted f.mimeType) ||
            (a.convert && !isConverted f.mimeType) then
      match svcDelete d f.id with
      | .ok d' =>
        let (o, d'') := svcInsert d' nm parents a.convert a.mimetype a.bytestring
        (.ret (some o), d'', [.deleteOp f.id, .insertOp])
      | .error reason =>
        match classifyReason reason with
        | .fatal => (.ret none, d, [.deleteOp f.id])
        | _ =>
          let (o, d'') := svcInsert d nm parents a.convert a.mimetype a.bytestring
          (.ret (some o), d'', [.deleteOp f.id, .insertOp])
    else
      match runExec (svcUpdate d f.id nm parents a.convert a.mimetype a.bytestring) with
      | .ok (some (o, d')) => (.ret (some o), d', [.updateOp f.id])
      | .ok none => (.ret none, d, [.updateOp f.id])
      | .error reason => (.raised reason, d, [.updateOp f.id])
  | none =>
    let (o, d') := svcInsert d nm parents a.convert a.mimetype a.bytestring
    (.ret (some o), d', [.insertOp])

/-- `DriveClient.write`: resolve the target, then reconcile. -/
def write (d : Drive) (a : WriteArgs) : WriteOutcome × Drive × List DriveOp :=
  match resolveTarget d a with
  | (.early, log) => (.ret none, d, log)
  | (.pyError m, log) => (.raised m, d, log)
  | (.found ef nm ps, log) =>
    let (o, d', log') := writeRecon d a ef nm ps
    (o, d', log ++ log')

/-! ### Helper lemmas about resolution and the store -/

theorem classify_notfound : classifyReason "File not found" = ErrClass.absorbable := by
  decide

theorem classify_noaccess :
    classifyReason "The authenticated user does not have the required access to the file" =
      ErrClass.fatal := by
  decide

theorem mem_of_head? {α : Type} {l : List α} {a : α} (h : l.head? = some a) :
    a ∈ l := by
  cases l with
  | nil => simp at h
  | cons b bs =>
    simp only [List.head?_cons, Option.some.injEq] at h
    subst h
    exact List.mem_cons_self b bs

theorem clientQuery1_mem {d : Drive} {pred : RemoteObjectMeta → Bool}
    {parent : Option Nat} {ef : RemoteObjectMeta}
    (h : clientQuery1 d pred parent = some ef) : ef ∈ d.objects := by
  have h1 : ef ∈ svcList d (scopedPred parent pred) 1 := mem_of_head? h
  have h2 : ef ∈ List.insertionSort byRecency (d.objects.filter (scopedPred parent pred)) :=
    (List.take_sublist 1 _).subset h1
  have h3 : ef ∈ d.objects.filter (scopedPred parent pred) :=
    (List.perm_insertionSort byRecency _).subset h2
  exact List.mem_of_mem_filter h3

theorem clientGet_eq (d : Drive) (i : Nat) : clientGet d i = d.findById i := by
  unfold clientGet runExec svcGet
  cases h : d.findById i with
  | some o => rfl
  | none => simp [classify_notfound]


theorem findById_self (d : Drive) (hwf : d.wf) (ef : RemoteObjectMeta)
    (hm : ef ∈ d.objects) : d.findById ef.id = some ef := by
  cases hf : d.findById ef.id with
  | none =>
    rw [Drive.findById, List.find?_eq_none] at hf
    exact absurd (by simp : (ef.id == ef.id) = true) (hf ef hm)
  | some o =>
    rw [Drive.findById] at hf
    have ho : o ∈ d.objects := List.mem_of_find?_eq_some hf
    have hoid := List.find?_some hf
    simp only [beq_iff_eq] at hoid
    have : o = ef := List.inj_on_of_nodup_map hwf.2 ho hm hoid
    rw [this]

theorem resolveTarget_found_mem (d : Drive) (a : WriteArgs)
    (ef : RemoteObjectMeta) (nm : String) (ps : List Nat) (log : List DriveOp)
    (h : resolveTarget d a = (.found (some ef) nm ps, log)) :
    ef ∈ d.objects := by
  obtain ⟨anm, afo, abts, amt, arep, acv, aid⟩ := a
  cases aid with
  | some i =>
    cases hg : clientGet d i with
    | none => simp [resolveTarget, hg] at h
    | some o =>
      simp only [resolveTarget, hg, Prod.mk.injEq, ResolveResult.found.injEq,
        Option.some.injEq] at h
      rw [clientGet_eq] at hg
      exact h.1.1 ▸ List.mem_of_find?_eq_some hg
  | none =>
    cases anm with
    | none => simp [resolveTarget] at h
    | some nm' =>
      cases afo with
      | asName fnm =>
        cases hq : clientQuery1 d (folderByNamePred fnm) none with
        | none => simp [resolveTarget, hq] at h
        | some f =>
          simp only [resolveTarget, hq, Prod.mk.injEq,
            ResolveResult.found.injEq] at h
          exact clientQuery1_mem h.1.1
      | asObj f =>
        simp only [resolveTarget, Prod.mk.injEq, ResolveResult.found.injEq] at h
        exact clientQuery1_mem h.1.1
      | noArg =>
        cases hg : clientGet d d.rootId with
        | none => simp [resolveTarget, hg] at h
        | some f =>
          simp only [resolveTarget, hg, Prod.mk.injEq,
            ResolveResult.found.injEq] at h
          exact clientQuery1_mem h.1.1

theorem resolveTarget_log_readonly (d : Drive) (a : WriteArgs)
    (r : ResolveResult) (log : List DriveOp)
    (h : resolveTarget d a = (r, log)) :
    ∀ op ∈ log, op.mutating = false := by
  obtain ⟨anm, afo, abts, amt, arep, acv, aid⟩ := a
  cases aid with
  | some i =>
    cases hg : clientGet d i <;>
      · simp only [resolveTarget, hg, Prod.mk.injEq] at h
        rw [← h.2]
        intro op hop
        fin_cases hop
        all_goals rfl
  | none =>
    cases anm with
    | none =>
      simp only [resolveTarget, Prod.mk.injEq] at h
      rw [← h.2]
      intro op hop
      fin_cases hop
    | some nm' =>
      cases afo with
      | asName fnm =>
        cases hq : clientQuery1 d (folderByNamePred fnm) none <;>
          · simp only [resolveTarget, hq, Prod.mk.injEq] at h
            rw [← h.2]
            intro op hop
            fin_cases hop
            all_goals rfl
      | asObj f =>
        simp only [resolveTarget, Prod.mk.injEq] at h
        rw [← h.2]
        intro op hop
        fin_cases hop
        all_goals rfl
      | noArg =>
        cases hg : clientGet d d.rootId <;>
          · simp only [resolveTarget, hg, Prod.mk.injEq] at h
            rw [← h.2]
            intro op hop
            fin_cases hop
            all_goals rfl

/-! ### Branch lemmas for the reconciliation phase -/

theorem writeRecon_update (d : Drive) (a : WriteArgs) (ef : RemoteObjectMeta)
    (nm : String) (ps : List Nat)
    (hfind : d.findById ef.id = some ef)
    (hrep : a.replace = true)
    (hcv : isConverted ef.mimeType = a.convert) :
    ∃ o d', writeRecon d a (some ef) nm ps = (.ret (some o), d', [.updateOp ef.id]) ∧
      o.id = ef.id := by
  have hcond : ((!a.convert && isConverted ef.mimeType) ||
      (a.convert && !isConverted ef.mimeType)) = false := by
    rw [← hcv]; cases hic : isConverted ef.mimeType <;> simp
  have heq : writeRecon d a (some ef) nm ps =
      (.ret (some ({ ef with
          title := nm,
          parents := ps,
          mimeType := effectiveMime a.convert a.mimetype,
          content := a.bytestring,
          modifiedDate := d.now })),
       { d with
         objects := d.objects.map (fun p =>
           if p.id == ef.id then
             { ef with
               title := nm,
               parents := ps,
               mimeType := effectiveMime a.convert a.mimetype,
               content := a.bytestring,
               modifiedDate := d.now }
           else p) },
       [.updateOp ef.id]) := by
    simp only [writeRecon, hrep, hcond, Bool.not_true, Bool.false_eq_true,
      if_false, svcUpdate, hfind, runExec]
  exact ⟨_, _, heq, rfl⟩

theorem writeRecon_mismatch (d : Drive) (a : WriteArgs) (ef : RemoteObjectMeta)
    (nm : String) (ps : List Nat)
    (hfind : d.findById ef.id = some ef)
    (hrep : a.replace = true)
    (hcv : isConverted ef.mimeType ≠ a.convert)
    (howner : ef.ownedByOther = false) :
    ∃ o d', writeRecon d a (some ef) nm ps = (.ret (some o), d', [.deleteOp ef.id, .insertOp]) ∧
      o.id = d.nextId := by
  have hcond : ((!a.convert && isConverted ef.mimeType) ||
      (a.convert && !isConverted ef.mimeType)) = true := by
    cases hic : isConverted ef.mimeType <;> cases hac : a.convert <;> simp_all
  have hdel : svcDelete d ef.id =
      Except.ok { d with objects := d.objects.filter (fun p => p.id != ef.id) } := by
    simp only [svcDelete, hfind, howner]
    rfl
  have heq : writeRecon d a (some ef) nm ps =
      (.ret (some ({
          id := d.nextId,
          title := nm,
          mimeType := effectiveMime a.convert a.mimetype,
          parents := ps,
          content := a.bytestring,
          modifiedDate := d.now,
          trashed := false,
          ownedByOther := false })),
       { objects := ({
            id := d.nextId,
            title := nm,
            mimeType := effectiveMime a.convert a.mimetype,
            parents := ps,
            content := a.bytestring,
            modifiedDate := d.now,
            trashed := false,
            ownedByOther := false } : RemoteObjectMeta) ::
            d.objects.filter (fun p => p.id != ef.id),
         nextId := d.nextId + 1,
         rootId := d.rootId,
         now := d.now },
       [.deleteOp ef.id, .insertOp]) := by
    simp only [writeRecon, hrep, hcond, Bool.not_true, Bool.false_eq_true,
      if_false, if_true, hdel, svcInsert]
  exact ⟨_, _, heq, rfl⟩

theorem writeRecon_rejected (d : Drive) (a : WriteArgs) (ef : RemoteObjectMeta)
    (nm : String) (ps : List Nat)
    (hfind : d.findById ef.id = some ef)
    (hrep : a.replace = true)
    (hcv : isConverted ef.mimeType ≠ a.convert)
    (howner : ef.ownedByOther = true) :
    writeRecon d a (some ef) nm ps = (.ret none, d, [.deleteOp ef.id]) := by
  have hcond : ((!a.convert && isConverted ef.mimeType) ||
      (a.convert && !isConverted ef.mimeType)) = true := by
    cases hic : isConverted ef.mimeType <;> cases hac : a.convert <;> simp_all
  have hdel : svcDelete d ef.id = Except.error
      "The authenticated user does not have the required access to the file" := by
    simp only [svcDelete, hfind, howner]
    rfl
  simp only [writeRecon, hrep, hcond, Bool.not_true, Bool.false_eq_true,
    if_false, if_true, hdel, classify_noaccess]

/-! ### Claims about `write` (C3, C4, C5, C10) -/

/-- Claim C3: for a `write` with `replace` that finds an existing target:
if the target's storage representation agrees with the requested `convert`
flag, the call issues an in-place update and the returned object keeps the
existing identifier; if it disagrees, the call deletes the existing object
and inserts a fresh one (provided the remote service accepts the delete,
i.e. the object belongs to the authenticated account), and the returned
object carries an identifier that is new to the store — in particular it is
never the old identifier. -/
theorem write_replace_reconciliation (d : Drive) (a : WriteArgs)
    (ef : RemoteObjectMeta) (nm : String) (ps : List Nat) (log : List DriveOp)
    (hwf : d.wf)
    (hres : resolveTarget d a = (.found (some ef) nm ps, log))
    (hrep : a.replace = true) :
    (isConverted ef.mimeType = a.convert →
      ∃ o d', write d a = (.ret (some o), d', log ++ [.updateOp ef.id]) ∧
        o.id = ef.id) ∧
    (isConverted ef.mimeType ≠ a.convert → ef.ownedByOther = false →
      ∃ o d', write d a = (.ret (some o), d', log ++ [.deleteOp ef.id, .insertOp]) ∧
        o.id ≠ ef.id ∧ ∀ p ∈ d.objects, o.id ≠ p.id) := by
  have hmem := resolveTarget_found_mem d a ef nm ps log hres
  have hfind := findById_self d hwf ef hmem
  constructor
  · intro hcv
    obtain ⟨o, d', hrec, hid⟩ := writeRecon_update d a ef nm ps hfind hrep hcv
    exact ⟨o, d', by simp only [write, hres, hrec], hid⟩
  · intro hcv howner
    obtain ⟨o, d', hrec, hid⟩ := writeRecon_mismatch d a ef nm ps hfind hrep hcv howner
    refine ⟨o, d', by simp only [write, hres, hrec], ?_, ?_⟩
    · rw [hid]
      have := hwf.1 ef hmem
      omega
    · intro p hp
      rw [hid]
      have := hwf.1 p hp
      omega

/-- Claim C4: a `write` that finds an existing target while `replace` is
false returns `None`, leaves the store untouched, and its request log holds
no insert, update or delete call. -/
theorem write_no_replace (d : Drive) (a : WriteArgs)
    (ef : RemoteObjectMeta) (nm : String) (ps : List Nat) (log : List DriveOp)
    (hres : resolveTarget d a = (.found (some ef) nm ps, log))
    (hrep : a.replace = false) :
    write d a = (.ret none, d, log) ∧ ∀ op ∈ log, op.mutating = false := by
  have hrec : writeRecon d a (some ef) nm ps = (.ret none, d, []) := by
    simp [writeRecon, hrep]
  constructor
  · simp only [write, hres, hrec, List.append_nil]
  · exact resolveTarget_log_readonly d a _ log hres

/-- Claim C5: when the representation mismatch forces a delete and the
remote service rejects that delete (object owned by another account),
`write` returns `None`, the store is unchanged, and no insert or update was
issued — the rejected delete is the last call made. -/
theorem write_delete_rejected (d : Drive) (a : WriteArgs)
    (ef : RemoteObjectMeta) (nm : String) (ps : List Nat) (log : List DriveOp)
    (hwf : d.wf)
    (hres : resolveTarget d a = (.found (some ef) nm ps, log))
    (hrep : a.replace = true)
    (hcv : isConverted ef.mimeType ≠ a.convert)
    (howner : ef.ownedByOther = true) :
    write d a = (.ret none, d, log ++ [.deleteOp ef.id]) ∧
    DriveOp.insertOp ∉ log ++ [DriveOp.deleteOp ef.id] ∧
    (∀ i, DriveOp.updateOp i ∉ log ++ [DriveOp.deleteOp ef.id]) := by
  have hmem := resolveTarget_found_mem d a ef nm ps log hres
  have hfind := findById_self d hwf ef hmem
  have hrec := writeRecon_rejected d a ef nm ps hfind hrep hcv howner
  have hlog := resolveTarget_log_readonly d a _ log hres
  refine ⟨by simp only [write, hres, hrec], ?_, ?_⟩
  · intro hin
    rcases List.mem_append.1 hin with h1 | h1
    · have := hlog _ h1
      simp [DriveOp.mutating] at this
    · simp at h1
  · intro i hin
    rcases List.mem_append.1 hin with h1 | h1
    · have := hlog _ h1
      simp [DriveOp.mutating] at this
    · simp at h1

/-- Claim C10: a `write` addressed by id whose lookup finds nothing returns
`None` after the single (read-only) get call — the absent target is
absorbed, not treated as an insert. -/
theorem write_id_not_found (d : Drive) (a : WriteArgs) (i : Nat)
    (hid : a.id = some i) (hmiss : d.findById i = none) :
    write d a = (.ret none, d, [DriveOp.getOp i]) ∧
    ∀ op ∈ [DriveOp.getOp i], op.mutating = false := by
  have hg : clientGet d i = none := by rw [clientGet_eq, hmiss]
  obtain ⟨anm, afo, abts, amt, arep, acv, aid⟩ := a
  simp only at hid
  subst hid
  constructor
  · simp only [write, resolveTarget, hg]
  · intro op hop
    fin_cases hop
    rfl

/-! ### Claim C6: the shape and order of `query` results -/

theorem head?_take1 {α : Type} (l : List α) : (l.take 1).head? = l.head? := by
  cases l <;> rfl

/-- Claim C6 (amended): with a result bound of 1, `query` yields a single
object or `None` — the first match in most-recently-modified order, never a
list; with a bound above 1 it yields the (possibly empty) list of the first
`bound` matches — not necessarily all of them — ordered most recently
modified first. -/
theorem query_bound_semantics (d : Drive) (pred : RemoteObjectMeta → Bool)
    (parent : Option Nat) (k : Nat) :
    (k = 1 → clientQuery d pred parent k =
      .single (List.insertionSort byRecency
        (d.objects.filter (scopedPred parent pred))).head?) ∧
    (1 < k → ∃ l, clientQuery d pred parent k = .many l ∧
      l = (List.insertionSort byRecency
        (d.objects.filter (scopedPred parent pred))).take k ∧
      l.Sorted byRecency) := by
  constructor
  · intro hk
    subst hk
    simp only [clientQuery, svcList, gt_iff_lt, lt_self_iff_false, if_false,
      head?_take1]
  · intro hk
    refine ⟨_, ?_, rfl, ?_⟩
    · simp only [clientQuery, svcList, gt_iff_lt, hk, if_true]
    · exact (List.sorted_insertionSort byRecency _).sublist
        (List.take_sublist k _)

/-- Concrete objects for the query counterexample: three non-trashed files
with distinct modification dates. -/
def objA : RemoteObjectMeta :=
  ⟨0, "a", "text/plain", [], [], 3, false, false⟩

def objB : RemoteObjectMeta :=
  ⟨1, "b", "text/plain", [], [], 2, false, false⟩

def objC : RemoteObjectMeta :=
  ⟨2, "c", "text/plain", [], [], 1, false, false⟩

/-- A store holding the three objects above. -/
def d3 : Drive := ⟨[objC, objA, objB], 3, 100, 9⟩

/-- Claim C6, counterexample: with a result bound of 2 over a store in which
3 objects match the filter, `query` returns only the 2 most recently
modified matches — not a list of ALL matches as the claim states. -/
theorem query_bound_cex :
    clientQuery d3 (fun _ => true) none 2 = QueryResult.many [objA, objB] ∧
    (d3.objects.filter (fun _ => true)).length = 3 := by
  constructor <;> rfl

/-- Witness for `query_bound_semantics`: both bound shapes at the concrete
store `d3`. -/
theorem query_bound_semantics_witness :
    clientQuery d3 (fun _ => true) none 1 =
      QueryResult.single (List.insertionSort byRecency
        (d3.objects.filter (scopedPred none (fun _ => true)))).head? ∧
    ∃ l, clientQuery d3 (fun _ => true) none 2 = QueryResult.many l ∧
      l = (List.insertionSort byRecency
        (d3.objects.filter (scopedPred none (fun _ => true)))).take 2 ∧
      l.Sorted byRecency :=
  ⟨(query_bound_semantics d3 (fun _ => true) none 1).1 rfl,
   (query_bound_semantics d3 (fun _ => true) none 2).2 (by decide)⟩

/-! ### Claim C9: File/Folder classification at construction -/

/-- The kind of a remote object: the class `DriveObject.__new__` picks. -/
inductive DriveKind where
  | folderKind
  | fileKind
deriving Repr, DecidableEq

/-- The classification rule of `DriveObject.__new__`:
`DriveFolder if attributes['mimeType'] == DriveObject.folder_type else DriveFile`. -/
def classifyKind (mimeType : String) : DriveKind :=
  if mimeType = folderType then .folderKind else .fileKind

/-- A constructed `DriveObject`: the metadata it wraps and the class
(`kind`) chosen once at construction. -/
structure DriveObjectModel where
  meta : RemoteObjectMeta
  kind : DriveKind
deriving Repr

/-- `DriveObject.__new__` + `__init__`: `None` unless both `client` and
`attributes` are truthy, otherwise an instance whose class is fixed from the
mime type. -/
def mkDriveObject (clientPresent : Bool) (attributes : Option RemoteObjectMeta) :
    Option DriveObjectModel :=
  match attributes with
  | none => none
  | some m => if clientPresent then some ⟨m, classifyKind m.mimeType⟩ else none

/-- Claim C9: any object produced by construction carries the kind computed
from its mime type at construction time, and that kind is `Folder` exactly
when the mime type is the reserved folder marker — otherwise `File`. -/
theorem driveObject_kind (c : Bool) (m : Option RemoteObjectMeta)
    (o : DriveObjectModel) (h : mkDriveObject c m = some o) :
    o.kind = classifyKind o.meta.mimeType ∧
    (o.kind = DriveKind.folderKind ↔ o.meta.mimeType = folderType) := by
  match m with
  | none => simp [mkDriveObject] at h
  | some mm =>
    cases c with
    | false => simp [mkDriveObject] at h
    | true =>
      simp only [mkDriveObject, if_true, Option.some.injEq] at h
      subst h
      refine ⟨rfl, ?_⟩
      unfold classifyKind
      by_cases hmt : mm.mimeType = folderType <;> simp [hmt]

/-- A constructed folder object for the C9 witness. -/
def folderMeta : RemoteObjectMeta :=
  ⟨5, "Reports", "application/vnd.google-apps.folder", [], [], 0, false, false⟩

/-- Witness for `driveObject_kind` at a concrete folder construction. -/
theorem driveObject_kind_witness :
    (⟨folderMeta, DriveKind.folderKind⟩ : DriveObjectModel).kind =
      classifyKind (⟨folderMeta, DriveKind.folderKind⟩ : DriveObjectModel).meta.mimeType ∧
    ((⟨folderMeta, DriveKind.folderKind⟩ : DriveObjectModel).kind = DriveKind.folderKind ↔
      (⟨folderMeta, DriveKind.folderKind⟩ : DriveObjectModel).meta.mimeType = folderType) :=
  driveObject_kind true (some folderMeta) ⟨folderMeta, DriveKind.folderKind⟩ (by rfl)

/-! ### Claim C8: the `save_as` local write guard -/

/-- What a `save_as` call did to the local file: how many `file.write`
calls ran and what the path holds afterwards. -/
structure SaveResult where
  writes : Nat
  finalContent : Option (List Nat)
deriving Repr, DecidableEq

/-- `DriveFile.save_as`: `hashFn` is `hashfile(path, hashlib.md5())` applied
to the local bytes, `md5Checksum` the remote checksum attribute (`""` when
the attribute is absent, matching the `__getattr__` default), `remoteData`
the bytes `self.data` downloads, and `localContent` the current bytes at the
path (`none` when no file exists there). -/
def saveAs (hashFn : List Nat → String) (md5Checksum : String)
    (remoteData : List Nat) (localContent : Option (List Nat))
    (replace : Bool) : SaveResult :=
  match localContent with
  | some content =>
    if !replace then ⟨0, some content⟩
    else if md5Checksum != "" && md5Checksum == hashFn content then
      ⟨0, some content⟩
    else ⟨1, some remoteData⟩
  | none => ⟨1, some remoteData⟩

/-- Claim C8: on an existing local path, `replace=False` writes nothing;
`replace=True` with a present remote checksum equal to the hash of the
current local bytes writes nothing; in every other case — checksum absent,
checksum mismatched, or no file at the path — exactly one full write of the
remote content is performed. -/
theorem saveAs_guard (hashFn : List Nat → String) (md5 : String)
    (remoteData content : List Nat) :
    (saveAs hashFn md5 remoteData (some content) false = ⟨0, some content⟩) ∧
    (md5 ≠ "" → md5 = hashFn content →
      saveAs hashFn md5 remoteData (some content) true = ⟨0, some content⟩) ∧
    ((md5 = "" ∨ md5 ≠ hashFn content) →
      saveAs hashFn md5 remoteData (some content) true = ⟨1, some remoteData⟩) ∧
    (saveAs hashFn md5 remoteData none true = ⟨1, some remoteData⟩) := by
  refine ⟨rfl, ?_, ?_, rfl⟩
  · intro h1 h2
    have hb : (md5 != "" && md5 == hashFn content) = true := by
      rw [← h2]
      simp [bne_iff_ne, h1]
    simp [saveAs, hb]
  · intro h
    have hb : (md5 != "" && md5 == hashFn content) = false := by
      rcases h with h | h <;> simp [bne_iff_ne, h]
    simp [saveAs, hb]

/-- A constant hash function for the C8 witness. -/
def hConst : List Nat → String := fun _ => "abc"

/-- Witness for `saveAs_guard`: matching checksum writes nothing, absent
checksum writes once. -/
theorem saveAs_guard_witness :
    saveAs hConst "abc" [2] (some [1]) true = ⟨0, some [1]⟩ ∧
    saveAs hConst "" [2] (some [1]) true = ⟨1, some [2]⟩ :=
  ⟨(saveAs_guard hConst "abc" [2] [1]).2.1 (by decide) rfl,
   (saveAs_guard hConst "" [2] [1]).2.2.1 (Or.inl rfl)⟩

/-! ### Concrete write scenarios used for the witnesses -/

/-- A converted native document owned by the authenticated account. -/
def docMeta : RemoteObjectMeta :=
  ⟨0, "doc", "application/vnd.google-apps.document", [7], [1, 2], 5, false, false⟩

/-- A raw text file owned by another account. -/
def rawMeta : RemoteObjectMeta :=
  ⟨1, "raw", "text/plain", [7], [1], 4, false, true⟩

/-- A well-formed store holding both objects. -/
def dW : Drive := ⟨[docMeta, rawMeta], 2, 7, 10⟩

theorem dW_wf : dW.wf := by
  constructor
  · decide
  · decide

/-- `write(id=0, replace=True, convert=True)`: matching representation. -/
def argsUpdate : WriteArgs :=
  ⟨none, FolderArg.noArg, [9], "text/plain", true, true, some 0⟩

/-- `write(id=0, replace=False)`. -/
def argsNoReplace : WriteArgs :=
  ⟨none, FolderArg.noArg, [9], "text/plain", false, true, some 0⟩

/-- `write(id=1, replace=True, convert=True)`: representation mismatch on an
object owned by another account. -/
def argsRejected : WriteArgs :=
  ⟨none, FolderArg.noArg, [9], "text/plain", true, true, some 1⟩

/-- `write(id=99, ...)`: an id that resolves to nothing. -/
def argsMissing : WriteArgs :=
  ⟨none, FolderArg.noArg, [9], "text/plain", true, true, some 99⟩

/-- Witness for `write_replace_reconciliation`: the matching-representation
update branch at the concrete store `dW`. -/
theorem write_replace_reconciliation_witness :
    ∃ o d', write dW argsUpdate = (.ret (some o), d',
      [DriveOp.getOp 0] ++ [DriveOp.updateOp docMeta.id]) ∧ o.id = docMeta.id :=
  (write_replace_reconciliation dW argsUpdate docMeta "doc" [7]
    [DriveOp.getOp 0] dW_wf rfl rfl).1 rfl

/-- Witness for `write_no_replace` at the concrete store `dW`. -/
theorem write_no_replace_witness :
    write dW argsNoReplace = (.ret none, dW, [DriveOp.getOp 0]) :=
  (write_no_replace dW argsNoReplace docMeta "doc" [7] [DriveOp.getOp 0]
    rfl rfl).1

/-- Witness for `write_delete_rejected` at the concrete store `dW`. -/
theorem write_delete_rejected_witness :
    write dW argsRejected = (.ret none, dW,
      [DriveOp.getOp 1] ++ [DriveOp.deleteOp rawMeta.id]) :=
  (write_delete_rejected dW argsRejected rawMeta "raw" [7] [DriveOp.getOp 1]
    dW_wf rfl rfl (by decide) rfl).1

/-- Witness for `write_id_not_found` at the concrete store `dW`. -/
theorem write_id_not_found_witness :
    write dW argsMissing = (.ret none, dW, [DriveOp.getOp 99]) :=
  (write_id_not_found dW argsMissing 99 rfl rfl).1

end DriveClient
